/-
Verification development for the Tailor hero-canvas particle simulation
(src/script.js, second script variant: the one with scroll dispersion and
click shockwaves; the claims' line numbers refer to it).

Modelling conventions (shallow embedding):
- JavaScript numbers (IEEE float64) are modelled as exact rationals (ℚ).
- `Math.sqrt` is not rational-valued, so it is modelled as an explicit
  function parameter `sqrtFn : ℚ → ℚ` carried in the environment; theorems
  that depend on square roots being exact state that as a hypothesis at the
  precise arguments where the code calls `Math.sqrt`.
- Particles (`nodes`) are mutable JS objects aliased by the quadtree; the
  embedding stores particle *indices* in the tree and passes the evolving
  particle array explicitly, which reproduces the aliasing semantics.
- `Math.random()` draws and `Math.cos`/`Math.sin`/π are modelled as stream /
  function parameters where needed (`generateNodes`).
- The quadtree's recursive `insert` can cascade splits; recursion is bounded
  in the source by the depth-6 cap, and is expressed here with a fuel
  parameter (fuel 8 is more than the maximal possible nesting, so the
  fuel-exhausted fallback, which files the item at the current node, is
  never reached for trees built by `buildTree`).
-/
import Mathlib

namespace Tailor

/-- A particle ("ball node") as created by `generateNodes` (script.js:682-691).
The CSS color string is abstracted to its palette index. -/
structure Ball where
  x : ℚ
  y : ℚ
  homeX : ℚ
  homeY : ℚ
  vx : ℚ
  vy : ℚ
  r : ℚ
  color : ℕ
deriving DecidableEq, Inhabited

/-- A click shockwave entry (script.js:858): origin and creation timestamp. -/
structure Shock where
  x : ℚ
  y : ℚ
  time : ℚ
deriving DecidableEq, Inhabited

/-- HOME_STRENGTH physics constant (script.js:595). -/
def HOME_STRENGTH : ℚ := 0.005

/-- CURSOR_REPULSION physics constant (script.js:596). -/
def CURSOR_REPULSION : ℚ := 8000

/-- DAMPING physics constant (script.js:597). -/
def DAMPING : ℚ := 0.88

/-- BALL_COUNT population constant (script.js:598). -/
def BALL_COUNT : ℕ := 280

/-- Squared distance between two ball centers, exactly the `dx*dx + dy*dy`
expression of the collision loop (script.js:770-772). -/
def dist2 (a b : Ball) : ℚ :=
  (a.x - b.x) * (a.x - b.x) + (a.y - b.y) * (a.y - b.y)

/-- `QuadTree._getIndex` (script.js:651-662): classify a ball against the
midlines of the node box `(x, y, w, h)`; result 0..3 is a child slot, -1
means the radius-expanded bounding box straddles a midline and the item is
kept at the current node. The JS `if` fall-through is rendered as an
else-if chain with the same priority order. -/
def getIdx (b : Ball) (x y w h : ℚ) : Int :=
  let mx := x + w / 2
  let my := y + h / 2
  let r := b.r
  if b.x - r > mx ∧ (b.y - r < my ∧ b.y + r < my) then 0
  else if b.x - r > mx ∧ b.y - r > my then 2
  else if (b.x - r < mx ∧ b.x + r < mx) ∧ (b.y - r < my ∧ b.y + r < my) then 1
  else if (b.x - r < mx ∧ b.x + r < mx) ∧ b.y - r > my then 3
  else -1

/-- The quadtree (script.js:614-673). `children` is either absent (leaf) or
exactly four subtrees; `items` holds indices into the particle array. The
child order matches the `_split` array (script.js:666-671). -/
inductive QT where
  | leaf (x y w h : ℚ) (depth : ℕ) (items : List ℕ)
  | node (x y w h : ℚ) (depth : ℕ) (items : List ℕ) (c0 c1 c2 c3 : QT)

/-- One step of the `_split` redistribution loop (script.js:631-637): given
the insertion function `ins` for the freshly created children, file item `k`
into the child slot `_getIndex` chooses, or keep it in the residual item
list when the result is -1. The accumulator is (residual items, c0, c1, c2,
c3). -/
def QT.redistOne (ps : List Ball) (ins : ℕ → QT → QT) (x y w h : ℚ) (k : ℕ)
    (acc : List ℕ × QT × QT × QT × QT) : List ℕ × QT × QT × QT × QT :=
  let idx := getIdx (ps.getD k default) x y w h
  if idx = 0 then (acc.1, ins k acc.2.1, acc.2.2.1, acc.2.2.2.1, acc.2.2.2.2)
  else if idx = 1 then (acc.1, acc.2.1, ins k acc.2.2.1, acc.2.2.2.1, acc.2.2.2.2)
  else if idx = 2 then (acc.1, acc.2.1, acc.2.2.1, ins k acc.2.2.2.1, acc.2.2.2.2)
  else if idx = 3 then (acc.1, acc.2.1, acc.2.2.1, acc.2.2.2.1, ins k acc.2.2.2.2)
  else (k :: acc.1, acc.2.1, acc.2.2.1, acc.2.2.2.1, acc.2.2.2.2)

/-- `QuadTree.insert` (script.js:622-638), including `_split` (script.js:663-672)
and its redistribution loop, which walks the item list from the end (hence
the `foldr`), splicing cleanly-classified items into the fresh children.
`fuel` bounds the recursion nesting (see the header note). -/
def QT.insert (ps : List Ball) : ℕ → ℕ → QT → QT
  | 0, j, QT.leaf x y w h d items => QT.leaf x y w h d (items ++ [j])
  | 0, j, QT.node x y w h d items c0 c1 c2 c3 =>
      QT.node x y w h d (items ++ [j]) c0 c1 c2 c3
  | fuel + 1, j, QT.node x y w h d items c0 c1 c2 c3 =>
      let idx := getIdx (ps.getD j default) x y w h
      if idx = 0 then QT.node x y w h d items (QT.insert ps fuel j c0) c1 c2 c3
      else if idx = 1 then QT.node x y w h d items c0 (QT.insert ps fuel j c1) c2 c3
      else if idx = 2 then QT.node x y w h d items c0 c1 (QT.insert ps fuel j c2) c3
      else if idx = 3 then QT.node x y w h d items c0 c1 c2 (QT.insert ps fuel j c3)
      else QT.node x y w h d (items ++ [j]) c0 c1 c2 c3
  | fuel + 1, j, QT.leaf x y w h d items0 =>
      let items := items0 ++ [j]
      if 8 < items.length ∧ d < 6 then
        let hw := w / 2
        let hh := h / 2
        let res := items.foldr
          (QT.redistOne ps (fun k t => QT.insert ps fuel k t) x y w h)
          ([], QT.leaf (x + hw) y hw hh (d + 1) [], QT.leaf x y hw hh (d + 1) [],
           QT.leaf x (y + hh) hw hh (d + 1) [], QT.leaf (x + hw) (y + hh) hw hh (d + 1) [])
        QT.node x y w h d res.1 res.2.1 res.2.2.1 res.2.2.2.1 res.2.2.2.2
      else QT.leaf x y w h d items

/-- All item indices stored anywhere in the (sub)tree. -/
def QT.allItems : QT → List ℕ
  | QT.leaf _ _ _ _ _ items => items
  | QT.node _ _ _ _ _ items c0 c1 c2 c3 =>
      items ++ c0.allItems ++ c1.allItems ++ c2.allItems ++ c3.allItems

/-- `QuadTree.retrieve` (script.js:639-650): descend into the child selected
by `_getIndex` for the query ball (or all four children when it straddles a
midline), then append the items held at this node. -/
def QT.retrieve (b : Ball) : QT → List ℕ
  | QT.leaf _ _ _ _ _ items => items
  | QT.node x y w h _ items c0 c1 c2 c3 =>
      let idx := getIdx b x y w h
      (if idx = 0 then c0.retrieve b
       else if idx = 1 then c1.retrieve b
       else if idx = 2 then c2.retrieve b
       else if idx = 3 then c3.retrieve b
       else c0.retrieve b ++ c1.retrieve b ++ c2.retrieve b ++ c3.retrieve b) ++ items

/-- Build the per-tick tree exactly as `simulate` does (script.js:711-712):
a fresh root over the viewport box, then insert every particle index in
order. -/
def buildTree (width height : ℚ) (ps : List Ball) : QT :=
  (List.range ps.length).foldl (fun t j => QT.insert ps 8 j t)
    (QT.leaf 0 0 width height 0 [])

/-- Structural invariant of every tree the code builds: each item filed in a
child subtree was classified into exactly that child slot by `_getIndex`
with respect to this node's midlines. This is what `retrieve`'s single-child
descent relies on. -/
def QT.wellPlaced (ps : List Ball) : QT → Prop
  | QT.leaf _ _ _ _ _ _ => True
  | QT.node x y w h _ _ c0 c1 c2 c3 =>
      (∀ j ∈ c0.allItems, getIdx (ps.getD j default) x y w h = 0) ∧
      (∀ j ∈ c1.allItems, getIdx (ps.getD j default) x y w h = 1) ∧
      (∀ j ∈ c2.allItems, getIdx (ps.getD j default) x y w h = 2) ∧
      (∀ j ∈ c3.allItems, getIdx (ps.getD j default) x y w h = 3) ∧
      c0.wellPlaced ps ∧ c1.wellPlaced ps ∧ c2.wellPlaced ps ∧ c3.wellPlaced ps

/-- The ambient simulation inputs captured by the `simulate` closure:
viewport dimensions and center (maintained by `resize`, script.js:695-707),
pointer state (script.js:586, sentinel -9999 when off canvas), scroll
dispersion factor (script.js:589), and the abstract square-root function
standing in for `Math.sqrt`. -/
structure Env where
  sqrtFn : ℚ → ℚ
  width : ℚ
  height : ℚ
  centerX : ℚ
  centerY : ℚ
  mouseX : ℚ
  mouseY : ℚ
  scrollProgress : ℚ

/-- Force 1, return to home (script.js:721-725). -/
def homeStep (b : Ball) : Ball :=
  let gdx := b.homeX - b.x
  let gdy := b.homeY - b.y
  { b with vx := b.vx + gdx * HOME_STRENGTH, vy := b.vy + gdy * HOME_STRENGTH }

/-- Force 2, scroll dispersion (script.js:727-735). The JS `|| 1` guard on a
zero square root is rendered as an explicit zero test. -/
def disperseStep (e : Env) (b : Ball) : Ball :=
  if 0 < e.scrollProgress then
    let sdx := b.x - e.centerX
    let sdy := b.y - e.centerY
    let s := e.sqrtFn (sdx * sdx + sdy * sdy)
    let sDist := if s = 0 then 1 else s
    let disperseForce := e.scrollProgress * 2.5
    { b with vx := b.vx + sdx / sDist * disperseForce,
             vy := b.vy + sdy / sDist * disperseForce }
  else b

/-- Force 3, cursor repulsion (script.js:737-746). -/
def cursorStep (e : Env) (b : Ball) : Ball :=
  let cdx := b.x - e.mouseX
  let cdy := b.y - e.mouseY
  let cDistSq := cdx * cdx + cdy * cdy
  if 0 < cDistSq ∧ cDistSq < 200 * 200 then
    let cDist := e.sqrtFn cDistSq
    let force := CURSOR_REPULSION / cDistSq
    { b with vx := b.vx + cdx / cDist * force, vy := b.vy + cdy / cDist * force }
  else b

/-- Force 4, a single shockwave's contribution (script.js:749-761, loop body). -/
def shockStep1 (e : Env) (now : ℚ) (sw : Shock) (b : Ball) : Ball :=
  let age := (now - sw.time) / 400
  let swdx := b.x - sw.x
  let swdy := b.y - sw.y
  let swDistSq := swdx * swdx + swdy * swdy
  if swDistSq < 300 * 300 ∧ 0 < swDistSq then
    let swDist := e.sqrtFn swDistSq
    let swForce := (1 - age) * 15 * (1 - swDist / 300)
    { b with vx := b.vx + swdx / swDist * swForce, vy := b.vy + swdy / swDist * swForce }
  else b

/-- Force 4, the loop over all live shockwaves (script.js:749). -/
def shockStep (e : Env) (now : ℚ) (live : List Shock) (b : Ball) : Ball :=
  live.foldl (fun b sw => shockStep1 e now sw b) b

/-- Force 5, one neighbor's collision contribution (script.js:768-781, loop
body). `o` is the neighbor as read from the live particle array at this
moment of the tick. -/
def collideOne (e : Env) (b o : Ball) : Ball :=
  let dx := b.x - o.x
  let dy := b.y - o.y
  let distSq := dist2 b o
  let minDist := b.r + o.r + 1
  if distSq < minDist * minDist ∧ 0 < distSq then
    let dist := e.sqrtFn distSq
    let overlap := minDist - dist
    let nx := dx / dist
    let ny := dy / dist
    { b with vx := b.vx + nx * overlap * 0.3, vy := b.vy + ny * overlap * 0.3 }
  else b

/-- Force 5, the loop over the quadtree candidates (script.js:765-782).
`i` is the index of the particle being processed; the JS `o === n` reference
check is index equality. Neighbors are read from the current array `arr`. -/
def collideStep (e : Env) (arr : List Ball) (i : ℕ) (nearby : List ℕ) (b : Ball) : Ball :=
  nearby.foldl (fun b j => if j = i then b else collideOne e b (arr.getD j default)) b

/-- Step 6, damping and position integration (script.js:784-788). -/
def integrateStep (b : Ball) : Ball :=
  let vx := b.vx * DAMPING
  let vy := b.vy * DAMPING
  { b with vx := vx, vy := vy, x := b.x + vx, y := b.y + vy }

/-- Step 7, soft bounce containment (script.js:790-795): four sequential
clamp-and-damp checks. -/
def boundsStep (width height : ℚ) (b : Ball) : Ball :=
  let margin := b.r
  let b := if b.x < margin then { b with x := margin, vx := b.vx * (-0.5) } else b
  let b := if b.x > width - margin then { b with x := width - margin, vx := b.vx * (-0.5) } else b
  let b := if b.y < margin then { b with y := margin, vy := b.vy * (-0.5) } else b
  let b := if b.y > height - margin then { b with y := height - margin, vy := b.vy * (-0.5) } else b
  b

/-- The five force accumulations for the particle at index `i` of the live
array `arr` (script.js:718-782), in source order. The particle's own
position fields are untouched until integration, exactly as in the source
where steps 1-5 write only `vx`/`vy`. -/
def forceStages (e : Env) (now : ℚ) (live : List Shock) (tree : QT)
    (arr : List Ball) (i : ℕ) : Ball :=
  let n := arr.getD i default
  let n := homeStep n
  let n := disperseStep e n
  let n := cursorStep e n
  let n := shockStep e now live n
  let nearby := tree.retrieve n
  collideStep e arr i nearby n

/-- The whole per-particle loop body (script.js:718-796): forces, then
integration, then containment. -/
def stepBall (e : Env) (now : ℚ) (live : List Shock) (tree : QT)
    (arr : List Ball) (i : ℕ) : Ball :=
  boundsStep e.width e.height (integrateStep (forceStages e now live tree arr i))

/-- The in-place particle loop (script.js:718): process indices `0..k-1` in
order, each step writing its particle back into the array before the next
index is processed (the JS objects are mutated in place, so later particles
observe earlier particles' updates). -/
def tickFold (e : Env) (now : ℚ) (live : List Shock) (tree : QT)
    (ps : List Ball) (k : ℕ) : List Ball :=
  (List.range k).foldl (fun arr i => arr.set i (stepBall e now live tree arr i)) ps

/-- The shockwave expiry filter run at the top of `simulate`
(script.js:715-716); the spec calls this `prune`. -/
def prune (now : ℚ) (l : List Shock) : List Shock :=
  l.filter (fun s => now - s.time < 400)

/-- `simulate` (script.js:709-797): build the quadtree over the current
particles, prune expired shockwaves, then run the per-particle loop.
Returns the updated particle array and the pruned shockwave list (the JS
reassigns the captured `shockwaves` variable). -/
def simulate (e : Env) (now : ℚ) (shocks : List Shock) (nodes : List Ball) :
    List Ball × List Shock :=
  let tree := buildTree e.width e.height nodes
  let live := prune now shocks
  (tickFold e now live tree nodes nodes.length, live)

/-- `generateNodes` (script.js:675-693). `Math.random()` draws are modelled
as a stream `rnd` consumed in source order (angle, dist, x, y, vx, vy, r,
color: eight draws per ball); π and `Math.cos`/`Math.sin` are abstract
parameters. The color string is abstracted to its palette index
`⌊rnd*6⌋`. -/
def generateNodes (piQ : ℚ) (cosFn sinFn : ℚ → ℚ) (rnd : ℕ → ℚ)
    (width height centerX centerY : ℚ) : List Ball :=
  (List.range BALL_COUNT).map (fun i =>
    let angle := rnd (8 * i) * piQ * 2
    let dist := 50 + rnd (8 * i + 1) * min width height * 0.35
    let homeX := centerX + cosFn angle * dist
    let homeY := centerY + sinFn angle * dist
    { x := rnd (8 * i + 2) * width,
      y := -50 - rnd (8 * i + 3) * height,
      homeX := homeX, homeY := homeY,
      vx := (rnd (8 * i + 4) - 0.5) * 2,
      vy := rnd (8 * i + 5) * 3,
      r := 4 + rnd (8 * i + 6) * 12,
      color := (rnd (8 * i + 7) * 6).floor.toNat })

/-- The per-ball alpha computed by `draw` (script.js:813-827): scroll fade
base plus cursor glow boost, capped at 1. -/
def drawAlpha (e : Env) (b : Ball) : ℚ :=
  let baseAlpha := max 0 (0.6 * (1 - e.scrollProgress))
  let gdx := b.x - e.mouseX
  let gdy := b.y - e.mouseY
  let gDist := e.sqrtFn (gdx * gdx + gdy * gdy)
  let glowRange : ℚ := 150
  let glowFactor := if gDist < glowRange then 1 - gDist / glowRange else 0
  min 1 (baseAlpha + glowFactor * 0.08)

/-- Items collected in a `_split` redistribution accumulator (proof helper). -/
def QT.accItems (a : List ℕ × QT × QT × QT × QT) : List ℕ :=
  a.1 ++ a.2.1.allItems ++ a.2.2.1.allItems ++ a.2.2.2.1.allItems ++ a.2.2.2.2.allItems

/-- Placement invariant of a `_split` redistribution accumulator (proof
helper): each child of the accumulator only holds items classified into its
slot, and each child is itself well placed. -/
def QT.accWP (ps : List Ball) (x y w h : ℚ) (a : List ℕ × QT × QT × QT × QT) : Prop :=
  (∀ j ∈ a.2.1.allItems, getIdx (ps.getD j default) x y w h = 0) ∧
  (∀ j ∈ a.2.2.1.allItems, getIdx (ps.getD j default) x y w h = 1) ∧
  (∀ j ∈ a.2.2.2.1.allItems, getIdx (ps.getD j default) x y w h = 2) ∧
  (∀ j ∈ a.2.2.2.2.allItems, getIdx (ps.getD j default) x y w h = 3) ∧
  a.2.1.wellPlaced ps ∧ a.2.2.1.wellPlaced ps ∧
  a.2.2.2.1.wellPlaced ps ∧ a.2.2.2.2.wellPlaced ps

/-- A particle resting at its spawn point with zero velocity (concrete-input
helper). -/
def mkBall (x y r : ℚ) : Ball :=
  { x := x, y := y, homeX := x, homeY := y, vx := 0, vy := 0, r := r, color := 0 }

/-- An environment with the pointer at the off-canvas sentinel, no scroll
dispersion, and viewport centered (concrete-input helper). -/
def sentinelEnv (sqrtFn : ℚ → ℚ) (width height : ℚ) : Env :=
  { sqrtFn := sqrtFn, width := width, height := height,
    centerX := width / 2, centerY := height / 2,
    mouseX := -9999, mouseY := -9999, scrollProgress := 0 }

/-- Concrete input refuting claim C1: nine balls in a 400x400 viewport.
Balls 0 and 1 sit just on either side of the vertical midline x = 200,
overlapping by the 1px collision margin only; balls 2-8 force the root to
split. -/
def C1balls : List Ball :=
  [mkBall 195.6 100 4, mkBall 204.5 100 4,
   mkBall 300 300 4, mkBall 310 300 4, mkBall 300 310 4, mkBall 310 310 4,
   mkBall 320 300 4, mkBall 300 320 4, mkBall 320 320 4]

/-- Concrete input for the amended-C1 witness: two overlapping balls. -/
def C1wit : List Ball := [mkBall 100 100 5, mkBall 103 100 5]

/-- Integrator semantics in the words of the spec (for the refinement claim
C5, this definition follows the spec text, not the code): "velocity *=
DAMPING (0.88); position += velocity. Boundary handling: if position
crosses [radius, dimension - radius] on an axis, position is clamped to the
boundary and that axis's velocity component is multiplied by -0.5". Returns
(x, y, vx, vy). -/
def integratorSpec (W H r x y vx vy : ℚ) : ℚ × ℚ × ℚ × ℚ :=
  let vx := vx * DAMPING
  let vy := vy * DAMPING
  let x := x + vx
  let y := y + vy
  let px := if x < r then (r, vx * (-0.5))
            else if x > W - r then (W - r, vx * (-0.5))
            else (x, vx)
  let py := if y < r then (r, vy * (-0.5))
            else if y > H - r then (H - r, vy * (-0.5))
            else (y, vy)
  (px.1, py.1, px.2, py.2)

/-- Square-root oracle for the C2 counterexample, exact on the two squared
distances that the run encounters (49 = 7^2 and 56.670784 = 7.528^2). -/
def C2sqrt : ℚ → ℚ :=
  fun q => if q = 49 then 7 else if q = 56670784 / 1000000 then 7528 / 1000 else 0

/-- Environment for the C2 counterexample. -/
def C2env : Env := sentinelEnv C2sqrt 400 400

/-- Two settled, overlapping particles (7 px apart, radii 4 and 4, so
collision threshold 9) for the C2 counterexample. -/
def C2pair : List Ball := [mkBall 100 200 4, mkBall 107 200 4]

/-- Zero-viewport environment for C7 (detached surface). -/
def C7env : Env := sentinelEnv (fun _ => 0) 0 0

/-- A single concrete particle for the C7 counterexample. -/
def C7ball : Ball := mkBall 5 5 4

section Theorems

attribute [local semireducible] Rat.add Rat.mul Rat.sub Rat.inv Rat.ofScientific

/-- `_getIndex` only returns -1, 0, 1, 2 or 3. -/
theorem getIdx_cases (b : Ball) (x y w h : ℚ) :
    getIdx b x y w h = -1 ∨ getIdx b x y w h = 0 ∨ getIdx b x y w h = 1 ∨
      getIdx b x y w h = 2 ∨ getIdx b x y w h = 3 := by
  simp only [getIdx]
  split_ifs <;> simp

/-- Inversion of `_getIndex`: any non-(-1) result pins the ball's expanded
bounding box strictly to one side of each midline it decided by. -/
theorem getIdx_spec (b : Ball) (x y w h : ℚ) :
    getIdx b x y w h = -1 ∨
    (getIdx b x y w h = 0 ∧ x + w / 2 < b.x - b.r ∧ b.y + b.r < y + h / 2) ∨
    (getIdx b x y w h = 2 ∧ x + w / 2 < b.x - b.r ∧ y + h / 2 < b.y - b.r) ∨
    (getIdx b x y w h = 1 ∧ b.x + b.r < x + w / 2 ∧ b.y + b.r < y + h / 2) ∨
    (getIdx b x y w h = 3 ∧ b.x + b.r < x + w / 2 ∧ y + h / 2 < b.y - b.r) := by
  simp only [getIdx]
  split_ifs with h0 h2 h1 h3
  · exact Or.inr (Or.inl ⟨rfl, h0.1, h0.2.2⟩)
  · exact Or.inr (Or.inr (Or.inl ⟨rfl, h2.1, h2.2⟩))
  · exact Or.inr (Or.inr (Or.inr (Or.inl ⟨rfl, h1.1.2, h1.2.2⟩)))
  · exact Or.inr (Or.inr (Or.inr (Or.inr ⟨rfl, h3.1.2, h3.2⟩)))
  · exact Or.inl rfl

/-- A strict gap on one axis larger than the radius sum forces the squared
center distance above the squared radius sum. -/
theorem sep_aux (a o : Ball) (hr : 0 ≤ a.r + o.r)
    (h : a.r + o.r < a.x - o.x ∨ a.r + o.r < o.x - a.x ∨
         a.r + o.r < a.y - o.y ∨ a.r + o.r < o.y - a.y) :
    (a.r + o.r) ^ 2 < dist2 a o := by
  unfold dist2
  rcases h with h | h | h | h <;>
    nlinarith [mul_self_nonneg (a.y - o.y), mul_self_nonneg (a.x - o.x)]

/-- Two balls classified into two different child slots of the same node are
separated by more than the sum of their radii. -/
theorem sep_of_getIdx_ne (a o : Ball) (x y w h : ℚ)
    (ha : getIdx a x y w h ≠ -1) (ho : getIdx o x y w h ≠ -1)
    (hne : getIdx a x y w h ≠ getIdx o x y w h) (hr : 0 ≤ a.r + o.r) :
    (a.r + o.r) ^ 2 < dist2 a o := by
  rcases getIdx_spec a x y w h with h1 | ⟨hv1, hx1, hy1⟩ | ⟨hv1, hx1, hy1⟩ |
      ⟨hv1, hx1, hy1⟩ | ⟨hv1, hx1, hy1⟩ <;>
    rcases getIdx_spec o x y w h with h2 | ⟨hv2, hx2, hy2⟩ | ⟨hv2, hx2, hy2⟩ |
        ⟨hv2, hx2, hy2⟩ | ⟨hv2, hx2, hy2⟩ <;>
      first
        | exact absurd h1 ha
        | exact absurd h2 ho
        | (rw [hv1, hv2] at hne; exact absurd rfl hne)
        | exact sep_aux a o hr (Or.inl (by linarith))
        | exact sep_aux a o hr (Or.inr (Or.inl (by linarith)))
        | exact sep_aux a o hr (Or.inr (Or.inr (Or.inl (by linarith))))
        | exact sep_aux a o hr (Or.inr (Or.inr (Or.inr (by linarith))))

/-- Membership through one redistribution step. -/
theorem accItems_redistOne (ps : List Ball) (ins : ℕ → QT → QT) (x y w h : ℚ)
    (hins : ∀ j t m, m ∈ (ins j t).allItems ↔ m = j ∨ m ∈ t.allItems)
    (k m : ℕ) (acc : List ℕ × QT × QT × QT × QT) :
    m ∈ QT.accItems (QT.redistOne ps ins x y w h k acc) ↔
      m = k ∨ m ∈ QT.accItems acc := by
  obtain ⟨rest, c0, c1, c2, c3⟩ := acc
  simp only [QT.redistOne, QT.accItems]
  split_ifs <;> simp [hins, List.mem_append, List.mem_cons] <;> tauto

/-- Membership through the whole redistribution fold. -/
theorem accItems_foldr (ps : List Ball) (ins : ℕ → QT → QT) (x y w h : ℚ)
    (hins : ∀ j t m, m ∈ (ins j t).allItems ↔ m = j ∨ m ∈ t.allItems)
    (l : List ℕ) (acc : List ℕ × QT × QT × QT × QT) (m : ℕ) :
    m ∈ QT.accItems (l.foldr (QT.redistOne ps ins x y w h) acc) ↔
      m ∈ l ∨ m ∈ QT.accItems acc := by
  induction l with
  | nil => simp
  | cons k l ih =>
      rw [List.foldr_cons, accItems_redistOne ps ins x y w h hins, ih, List.mem_cons]
      tauto

/-- `insert` adds exactly the inserted index to the stored item set. -/
theorem mem_insert_iff (ps : List Ball) :
    ∀ (fuel j : ℕ) (t : QT) (m : ℕ),
      m ∈ (QT.insert ps fuel j t).allItems ↔ m = j ∨ m ∈ t.allItems := by
  intro fuel
  induction fuel with
  | zero =>
      intro j t m
      cases t <;> simp [QT.insert, QT.allItems, List.mem_append] <;> tauto
  | succ fuel ih =>
      intro j t m
      cases t with
      | node x y w h d items c0 c1 c2 c3 =>
          simp only [QT.insert]
          split_ifs <;> simp [QT.allItems, List.mem_append, ih] <;> tauto
      | leaf x y w h d items =>
          simp only [QT.insert]
          split_ifs with hcond
          · have hfold := accItems_foldr ps (fun k t => QT.insert ps fuel k t) x y w h
              (fun j t m => ih j t m) (items ++ [j])
              ([], QT.leaf (x + w / 2) y (w / 2) (h / 2) (d + 1) [],
               QT.leaf x y (w / 2) (h / 2) (d + 1) [],
               QT.leaf x (y + h / 2) (w / 2) (h / 2) (d + 1) [],
               QT.leaf (x + w / 2) (y + h / 2) (w / 2) (h / 2) (d + 1) []) m
            simp only [QT.accItems, QT.allItems, List.mem_append, List.mem_singleton,
              List.not_mem_nil, or_false, or_assoc] at hfold ⊢
            rw [hfold]
            tauto
          · simp [QT.allItems, List.mem_append]
            tauto

/-- `insert` preserves the placement invariant. -/
theorem wellPlaced_insert (ps : List Ball) :
    ∀ (fuel j : ℕ) (t : QT), t.wellPlaced ps → (QT.insert ps fuel j t).wellPlaced ps := by
  intro fuel
  induction fuel with
  | zero =>
      intro j t ht
      cases t with
      | leaf x y w h d items => exact trivial
      | node x y w h d items c0 c1 c2 c3 => exact ht
  | succ fuel ih =>
      intro j t ht
      cases t with
      | node x y w h d items c0 c1 c2 c3 =>
          obtain ⟨h0, h1, h2, h3, w0, w1, w2, w3⟩ := ht
          simp only [QT.insert]
          split_ifs with e0 e1 e2 e3
          · refine ⟨?_, h1, h2, h3, ih j c0 w0, w1, w2, w3⟩
            intro m hm
            rcases (mem_insert_iff ps fuel j c0 m).1 hm with rfl | hm
            · exact e0
            · exact h0 m hm
          · refine ⟨h0, ?_, h2, h3, w0, ih j c1 w1, w2, w3⟩
            intro m hm
            rcases (mem_insert_iff ps fuel j c1 m).1 hm with rfl | hm
            · exact e1
            · exact h1 m hm
          · refine ⟨h0, h1, ?_, h3, w0, w1, ih j c2 w2, w3⟩
            intro m hm
            rcases (mem_insert_iff ps fuel j c2 m).1 hm with rfl | hm
            · exact e2
            · exact h2 m hm
          · refine ⟨h0, h1, h2, ?_, w0, w1, w2, ih j c3 w3⟩
            intro m hm
            rcases (mem_insert_iff ps fuel j c3 m).1 hm with rfl | hm
            · exact e3
            · exact h3 m hm
          · exact ⟨h0, h1, h2, h3, w0, w1, w2, w3⟩
      | leaf x y w h d items =>
          simp only [QT.insert]
          split_ifs with hcond
          · have key : ∀ (l : List ℕ) (acc : List ℕ × QT × QT × QT × QT),
                QT.accWP ps x y w h acc →
                QT.accWP ps x y w h (l.foldr (QT.redistOne ps
                  (fun k t => QT.insert ps fuel k t) x y w h) acc) := by
              intro l
              induction l with
              | nil => intro acc hacc; exact hacc
              | cons k l ihl =>
                  intro acc hacc
                  rw [List.foldr_cons]
                  have hacc' := ihl acc hacc
                  set acc' := l.foldr (QT.redistOne ps
                    (fun k t => QT.insert ps fuel k t) x y w h) acc with hacc'def
                  obtain ⟨a0, a1, a2, a3, b0, b1, b2, b3⟩ := hacc'
                  obtain ⟨rest, c0, c1, c2, c3⟩ := acc'
                  simp only [QT.redistOne]
                  split_ifs with e0 e1 e2 e3
                  · refine ⟨?_, a1, a2, a3, ih k c0 b0, b1, b2, b3⟩
                    intro m hm
                    rcases (mem_insert_iff ps fuel k c0 m).1 hm with rfl | hm
                    · exact e0
                    · exact a0 m hm
                  · refine ⟨a0, ?_, a2, a3, b0, ih k c1 b1, b2, b3⟩
                    intro m hm
                    rcases (mem_insert_iff ps fuel k c1 m).1 hm with rfl | hm
                    · exact e1
                    · exact a1 m hm
                  · refine ⟨a0, a1, ?_, a3, b0, b1, ih k c2 b2, b3⟩
                    intro m hm
                    rcases (mem_insert_iff ps fuel k c2 m).1 hm with rfl | hm
                    · exact e2
                    · exact a2 m hm
                  · refine ⟨a0, a1, a2, ?_, b0, b1, b2, ih k c3 b3⟩
                    intro m hm
                    rcases (mem_insert_iff ps fuel k c3 m).1 hm with rfl | hm
                    · exact e3
                    · exact a3 m hm
                  · exact ⟨a0, a1, a2, a3, b0, b1, b2, b3⟩
            have hinit : QT.accWP ps x y w h
                ([], QT.leaf (x + w / 2) y (w / 2) (h / 2) (d + 1) [],
                 QT.leaf x y (w / 2) (h / 2) (d + 1) [],
                 QT.leaf x (y + h / 2) (w / 2) (h / 2) (d + 1) [],
                 QT.leaf (x + w / 2) (y + h / 2) (w / 2) (h / 2) (d + 1) []) := by
              refine ⟨?_, ?_, ?_, ?_, trivial, trivial, trivial, trivial⟩ <;>
                intro m hm <;> simp [QT.allItems] at hm
            have := key (items ++ [j]) _ hinit
            obtain ⟨a0, a1, a2, a3, b0, b1, b2, b3⟩ := this
            exact ⟨a0, a1, a2, a3, b0, b1, b2, b3⟩
          · trivial

/-- Completeness of `retrieve` on well-placed trees: an item whose ball is
within radius-sum distance of the query ball is always among the returned
candidates. -/
theorem retrieve_complete (ps : List Ball) (b : Ball) :
    ∀ t : QT, t.wellPlaced ps → ∀ o ∈ t.allItems,
      0 ≤ b.r + (ps.getD o default).r →
      dist2 b (ps.getD o default) ≤ (b.r + (ps.getD o default).r) ^ 2 →
      o ∈ t.retrieve b := by
  intro t
  induction t with
  | leaf x y w h d items =>
      intro _ o ho _ _
      exact ho
  | node x y w h d items c0 c1 c2 c3 ih0 ih1 ih2 ih3 =>
      intro hwp o ho hr hd
      obtain ⟨h0, h1, h2, h3, w0, w1, w2, w3⟩ := hwp
      simp only [QT.allItems, List.mem_append, or_assoc] at ho
      simp only [QT.retrieve, List.mem_append]
      rcases ho with hoi | ho0 | ho1 | ho2 | ho3
      · exact Or.inr hoi
      · have hk := h0 o ho0
        have hfind := ih0 w0 o ho0 hr hd
        rcases getIdx_cases b x y w h with hb | hb | hb | hb | hb <;>
          first
            | (rw [hb]; norm_num [List.mem_append]; tauto)
            | (exfalso
               have hsep := sep_of_getIdx_ne b (ps.getD o default) x y w h
                 (by rw [hb]; decide) (by rw [hk]; decide) (by rw [hb, hk]; decide) hr
               linarith)
      · have hk := h1 o ho1
        have hfind := ih1 w1 o ho1 hr hd
        rcases getIdx_cases b x y w h with hb | hb | hb | hb | hb <;>
          first
            | (rw [hb]; norm_num [List.mem_append]; tauto)
            | (exfalso
               have hsep := sep_of_getIdx_ne b (ps.getD o default) x y w h
                 (by rw [hb]; decide) (by rw [hk]; decide) (by rw [hb, hk]; decide) hr
               linarith)
      · have hk := h2 o ho2
        have hfind := ih2 w2 o ho2 hr hd
        rcases getIdx_cases b x y w h with hb | hb | hb | hb | hb <;>
          first
            | (rw [hb]; norm_num [List.mem_append]; tauto)
            | (exfalso
               have hsep := sep_of_getIdx_ne b (ps.getD o default) x y w h
                 (by rw [hb]; decide) (by rw [hk]; decide) (by rw [hb, hk]; decide) hr
               linarith)
      · have hk := h3 o ho3
        have hfind := ih3 w3 o ho3 hr hd
        rcases getIdx_cases b x y w h with hb | hb | hb | hb | hb <;>
          first
            | (rw [hb]; norm_num [List.mem_append]; tauto)
            | (exfalso
               have hsep := sep_of_getIdx_ne b (ps.getD o default) x y w h
                 (by rw [hb]; decide) (by rw [hk]; decide) (by rw [hb, hk]; decide) hr
               linarith)

/-- Trees produced by `buildTree` satisfy the placement invariant. -/
theorem wellPlaced_buildTree (W H : ℚ) (ps : List Ball) :
    (buildTree W H ps).wellPlaced ps := by
  unfold buildTree
  suffices h : ∀ (l : List ℕ) (t : QT), t.wellPlaced ps →
      (l.foldl (fun t j => QT.insert ps 8 j t) t).wellPlaced ps from
    h _ _ trivial
  intro l
  induction l with
  | nil => intro t ht; exact ht
  | cons j l ih => intro t ht; exact ih _ (wellPlaced_insert ps 8 j t ht)

/-- Every index below the particle count ends up stored in the built tree. -/
theorem mem_buildTree (W H : ℚ) (ps : List Ball) (i : ℕ) (hi : i < ps.length) :
    i ∈ (buildTree W H ps).allItems := by
  unfold buildTree
  suffices h : ∀ (l : List ℕ) (t : QT), i ∈ l ∨ i ∈ t.allItems →
      i ∈ ((l.foldl (fun t j => QT.insert ps 8 j t) t).allItems) from
    h _ _ (Or.inl (List.mem_range.2 hi))
  intro l
  induction l with
  | nil =>
      intro t ht
      rcases ht with h | h
      · cases h
      · exact h
  | cons j l ih =>
      intro t ht
      apply ih
      rcases ht with h | h
      · rcases List.mem_cons.1 h with rfl | h
        · exact Or.inr ((mem_insert_iff ps 8 i t i).2 (Or.inl rfl))
        · exact Or.inl h
      · exact Or.inr ((mem_insert_iff ps 8 j t i).2 (Or.inr h))

/-- Claim C1, counterexample: two distinct particles inserted into a freshly
built QuadTree whose center distance is below the collision threshold
`n.r + o.r + 1` (they are 8.9 px apart with radii 4 and 4), yet neither
particle's `retrieve` candidate list contains the other: the quadtree's
descent rule expands boxes by the particle radius only, without the 1px
collision margin, so a pair straddling a split point within that margin is
missed. -/
theorem C1_counterexample :
    dist2 (C1balls.getD 0 default) (C1balls.getD 1 default) <
      ((C1balls.getD 0 default).r + (C1balls.getD 1 default).r + 1) ^ 2 ∧
    1 ∉ (buildTree 400 400 C1balls).retrieve (C1balls.getD 0 default) ∧
    0 ∉ (buildTree 400 400 C1balls).retrieve (C1balls.getD 1 default) := by
  decide

/-- Claim C1 (amended): the quadtree query is complete for pairs whose
center distance is at most the sum of their radii (without the extra 1px
collision margin): for distinct particles i and j of the inserted list with
nonnegative radii, if the squared center distance is at most the squared
radius sum, then `retrieve` for particle i returns particle j. -/
theorem C1_amended_completeness (W H : ℚ) (ps : List Ball) (i j : ℕ)
    (hi : i < ps.length) (hj : j < ps.length) (hij : i ≠ j)
    (hri : 0 ≤ (ps.getD i default).r) (hrj : 0 ≤ (ps.getD j default).r)
    (hd : dist2 (ps.getD i default) (ps.getD j default) ≤
      ((ps.getD i default).r + (ps.getD j default).r) ^ 2) :
    j ∈ (buildTree W H ps).retrieve (ps.getD i default) :=
  retrieve_complete ps (ps.getD i default) (buildTree W H ps)
    (wellPlaced_buildTree W H ps) j (mem_buildTree W H ps j hj)
    (add_nonneg hri hrj) hd

/-- Witness for the amended C1 at a concrete overlapping pair. -/
theorem C1_amended_witness :
    (0 : ℕ) ≠ 1 ∧ (0 : ℕ) < C1wit.length ∧ (1 : ℕ) < C1wit.length ∧
    0 ≤ (C1wit.getD 0 default).r ∧ 0 ≤ (C1wit.getD 1 default).r ∧
    dist2 (C1wit.getD 0 default) (C1wit.getD 1 default) ≤
      ((C1wit.getD 0 default).r + (C1wit.getD 1 default).r) ^ 2 ∧
    1 ∈ (buildTree 400 400 C1wit).retrieve (C1wit.getD 0 default) :=
  ⟨by decide, by decide, by decide, by decide, by decide, by decide,
   C1_amended_completeness 400 400 C1wit 0 1 (by decide) (by decide) (by decide)
     (by decide) (by decide) (by decide)⟩

/-- Claim C8: the candidate list returned by `retrieve` for a particle of
the inserted list always contains that particle itself (so consumers must
filter out the query particle, as the collision loop's identity check
does). -/
theorem C8_self_inclusion (W H : ℚ) (ps : List Ball) (i : ℕ)
    (hi : i < ps.length) (hr : 0 ≤ (ps.getD i default).r) :
    i ∈ (buildTree W H ps).retrieve (ps.getD i default) :=
  retrieve_complete ps (ps.getD i default) (buildTree W H ps)
    (wellPlaced_buildTree W H ps) i (mem_buildTree W H ps i hi)
    (add_nonneg hr hr)
    (by simp [dist2]; positivity)

/-- Witness for C8 at a concrete particle list. -/
theorem C8_witness :
    (0 : ℕ) < C1balls.length ∧ 0 ≤ (C1balls.getD 0 default).r ∧
    0 ∈ (buildTree 400 400 C1balls).retrieve (C1balls.getD 0 default) :=
  ⟨by decide, by decide, C8_self_inclusion 400 400 C1balls 0 (by decide) (by decide)⟩

/-- Reading a just-set entry. -/
theorem getD_set_self {α : Type} {l : List α} {i : ℕ} {v d : α} (h : i < l.length) :
    (l.set i v).getD i d = v := by
  simp [List.getD, List.getElem?_set, h]

/-- Reading an entry other than the one just set. -/
theorem getD_set_ne {α : Type} {l : List α} {i j : ℕ} {v d : α} (h : i ≠ j) :
    (l.set i v).getD j d = l.getD j d := by
  simp [List.getD, List.getElem?_set, h]

/-- Unfolding one more processed particle of the in-place loop. -/
theorem tickFold_succ (e : Env) (now : ℚ) (live : List Shock) (tree : QT)
    (ps : List Ball) (k : ℕ) :
    tickFold e now live tree ps (k + 1) =
      (tickFold e now live tree ps k).set k
        (stepBall e now live tree (tickFold e now live tree ps k) k) := by
  unfold tickFold
  rw [List.range_succ, List.foldl_append]
  rfl

/-- The loop never changes the array length. -/
theorem length_tickFold (e : Env) (now : ℚ) (live : List Shock) (tree : QT)
    (ps : List Ball) : ∀ k, (tickFold e now live tree ps k).length = ps.length := by
  intro k
  induction k with
  | zero => rfl
  | succ k ih => rw [tickFold_succ, List.length_set, ih]

/-- Particles not yet processed still hold their pre-tick state. -/
theorem tickFold_getD_of_le (e : Env) (now : ℚ) (live : List Shock) (tree : QT)
    (ps : List Ball) (i : ℕ) :
    ∀ k, k ≤ i → (tickFold e now live tree ps k).getD i default = ps.getD i default := by
  intro k
  induction k with
  | zero => intro _; rfl
  | succ k ih =>
      intro hk
      rw [tickFold_succ, getD_set_ne (by omega), ih (by omega)]

/-- The in-place loop in one formula: the processed particle at index `i`
is `stepBall` applied to the array in which particles `0..i-1` have already
been updated this tick (not to the pre-tick snapshot). -/
theorem tickFold_getD_eq_stepBall (e : Env) (now : ℚ) (live : List Shock) (tree : QT)
    (ps : List Ball) (i : ℕ) :
    ∀ k, i < k → k ≤ ps.length →
      (tickFold e now live tree ps k).getD i default =
        stepBall e now live tree (tickFold e now live tree ps i) i := by
  intro k
  induction k with
  | zero => intro h _; omega
  | succ k ih =>
      intro hik hk
      rcases Nat.lt_or_ge i k with h | h
      · rw [tickFold_succ, getD_set_ne (by omega), ih h (by omega)]
      · have : i = k := by omega
        subst this
        rw [tickFold_succ, getD_set_self]
        rw [length_tickFold]
        omega

/-- The post-tick particle at index `i`, as produced by `simulate`. -/
theorem simulate_fst_getD (e : Env) (now : ℚ) (shocks : List Shock)
    (nodes : List Ball) (i : ℕ) (hi : i < nodes.length) :
    (simulate e now shocks nodes).1.getD i default =
      stepBall e now (prune now shocks) (buildTree e.width e.height nodes)
        (tickFold e now (prune now shocks) (buildTree e.width e.height nodes) nodes i) i :=
  tickFold_getD_eq_stepBall e now (prune now shocks)
    (buildTree e.width e.height nodes) nodes i nodes.length hi (le_refl _)

/-- No force stage changes the radius (home attraction). -/
theorem homeStep_r (b : Ball) : (homeStep b).r = b.r := rfl

/-- No force stage changes the radius (scroll dispersion). -/
theorem disperseStep_r (e : Env) (b : Ball) : (disperseStep e b).r = b.r := by
  unfold disperseStep
  split_ifs <;> rfl

/-- No force stage changes the radius (cursor repulsion). -/
theorem cursorStep_r (e : Env) (b : Ball) : (cursorStep e b).r = b.r := by
  unfold cursorStep
  dsimp only
  split_ifs <;> rfl

/-- No force stage changes the radius (single shockwave). -/
theorem shockStep1_r (e : Env) (now : ℚ) (sw : Shock) (b : Ball) :
    (shockStep1 e now sw b).r = b.r := by
  unfold shockStep1
  dsimp only
  split_ifs <;> rfl

/-- No force stage changes the radius (shockwave loop). -/
theorem shockStep_r (e : Env) (now : ℚ) (l : List Shock) :
    ∀ b, (shockStep e now l b).r = b.r := by
  induction l with
  | nil => intro b; rfl
  | cons sw l ih =>
      intro b
      show (shockStep e now l (shockStep1 e now sw b)).r = b.r
      rw [ih, shockStep1_r]

/-- No force stage changes the radius (single collision). -/
theorem collideOne_r (e : Env) (b o : Ball) : (collideOne e b o).r = b.r := by
  unfold collideOne
  dsimp only
  split_ifs <;> rfl

/-- No force stage changes the radius (collision loop). -/
theorem collideStep_r (e : Env) (arr : List Ball) (i : ℕ) :
    ∀ (nearby : List ℕ) (b : Ball), (collideStep e arr i nearby b).r = b.r := by
  intro nearby
  induction nearby with
  | nil => intro b; rfl
  | cons j l ih =>
      intro b
      show (collideStep e arr i l (if j = i then b else collideOne e b (arr.getD j default))).r = b.r
      rw [ih]
      split_ifs <;> simp [collideOne_r]

/-- The force stages keep the particle's radius. -/
theorem forceStages_r (e : Env) (now : ℚ) (live : List Shock) (tree : QT)
    (arr : List Ball) (i : ℕ) :
    (forceStages e now live tree arr i).r = (arr.getD i default).r := by
  unfold forceStages
  rw [collideStep_r, shockStep_r, cursorStep_r, disperseStep_r, homeStep_r]

/-- Integration keeps the particle's radius. -/
theorem integrateStep_r (b : Ball) : (integrateStep b).r = b.r := rfl

/-- Containment of the soft-bounce clamp: whenever the viewport is at least
one diameter wide and high, the clamped position lies in
`[radius, dimension - radius]` on both axes, whatever position and velocity
came in. -/
theorem boundsStep_mem (W H : ℚ) (b : Ball) (hw : 2 * b.r ≤ W) (hh : 2 * b.r ≤ H) :
    b.r ≤ (boundsStep W H b).x ∧ (boundsStep W H b).x ≤ W - b.r ∧
    b.r ≤ (boundsStep W H b).y ∧ (boundsStep W H b).y ≤ H - b.r := by
  unfold boundsStep
  dsimp only
  split_ifs <;> refine ⟨?_, ?_, ?_, ?_⟩ <;> (try dsimp only) <;> linarith

/-- Claim C3: for every particle and every tick of `simulate`, after the
tick the particle's position lies within `[radius, width - radius]` and
`[radius, height - radius]`, assuming the viewport is at least one diameter
wide and high. This holds for any square-root function, any forces, and
any incoming velocity, because the final clamp of the per-particle step
enforces it unconditionally. -/
theorem C3_post_tick_containment (e : Env) (now : ℚ) (shocks : List Shock)
    (nodes : List Ball) (i : ℕ) (hi : i < nodes.length)
    (hw : 2 * (nodes.getD i default).r ≤ e.width)
    (hh : 2 * (nodes.getD i default).r ≤ e.height) :
    (nodes.getD i default).r ≤ ((simulate e now shocks nodes).1.getD i default).x ∧
    ((simulate e now shocks nodes).1.getD i default).x ≤ e.width - (nodes.getD i default).r ∧
    (nodes.getD i default).r ≤ ((simulate e now shocks nodes).1.getD i default).y ∧
    ((simulate e now shocks nodes).1.getD i default).y ≤ e.height - (nodes.getD i default).r := by
  rw [simulate_fst_getD e now shocks nodes i hi]
  set live := prune now shocks
  set tree := buildTree e.width e.height nodes
  set arr := tickFold e now live tree nodes i with harr
  have hzr : (integrateStep (forceStages e now live tree arr i)).r =
      (nodes.getD i default).r := by
    rw [integrateStep_r, forceStages_r, harr,
      tickFold_getD_of_le e now live tree nodes i i (le_refl i)]
  have hb := boundsStep_mem e.width e.height
    (integrateStep (forceStages e now live tree arr i))
    (by rw [hzr]; exact hw) (by rw [hzr]; exact hh)
  rw [hzr] at hb
  exact hb

/-- Witness for C3 at a concrete one-particle configuration. -/
theorem C3_witness :
    (0 : ℕ) < [mkBall 50 60 4].length ∧
    2 * ([mkBall 50 60 4].getD 0 default).r ≤ (400 : ℚ) ∧
    2 * ([mkBall 50 60 4].getD 0 default).r ≤ (300 : ℚ) ∧
    (([mkBall 50 60 4].getD 0 default).r ≤
      ((simulate (sentinelEnv (fun _ => 0) 400 300) 0 [] [mkBall 50 60 4]).1.getD 0 default).x ∧
     ((simulate (sentinelEnv (fun _ => 0) 400 300) 0 [] [mkBall 50 60 4]).1.getD 0 default).x ≤
       (sentinelEnv (fun _ => 0) 400 300).width - ([mkBall 50 60 4].getD 0 default).r ∧
     ([mkBall 50 60 4].getD 0 default).r ≤
       ((simulate (sentinelEnv (fun _ => 0) 400 300) 0 [] [mkBall 50 60 4]).1.getD 0 default).y ∧
     ((simulate (sentinelEnv (fun _ => 0) 400 300) 0 [] [mkBall 50 60 4]).1.getD 0 default).y ≤
       (sentinelEnv (fun _ => 0) 400 300).height - ([mkBall 50 60 4].getD 0 default).r) :=
  ⟨by decide, by decide, by decide,
   C3_post_tick_containment (sentinelEnv (fun _ => 0) 400 300) 0 [] [mkBall 50 60 4] 0
     (by decide) (by decide) (by decide)⟩

/-- The code's integrate-then-clamp sequence agrees with the spec's
integrator description whenever the viewport is at least one diameter wide
and high (without that assumption the code's two sequential clamps can both
fire, which the spec's single "crossing" case cannot express). -/
theorem integrate_bounds_spec (W H : ℚ) (b : Ball) (hw : 2 * b.r ≤ W) (hh : 2 * b.r ≤ H) :
    ((boundsStep W H (integrateStep b)).x, (boundsStep W H (integrateStep b)).y,
     (boundsStep W H (integrateStep b)).vx, (boundsStep W H (integrateStep b)).vy) =
      integratorSpec W H b.r b.x b.y b.vx b.vy := by
  unfold boundsStep integrateStep integratorSpec
  dsimp only
  split_ifs <;> first | rfl | (exfalso; linarith)

/-- Claim C5: for every particle in every tick state, the per-particle step
equals the spec integrator applied to the force-accumulated velocity:
velocity is damped by 0.88, then added to position, and a crossing of
`[radius, dimension - radius]` clamps the position and multiplies that
axis's velocity by -0.5 (viewport at least one diameter in each dimension). -/
theorem C5_integrator_refinement (e : Env) (now : ℚ) (live : List Shock) (tree : QT)
    (arr : List Ball) (i : ℕ)
    (hw : 2 * (arr.getD i default).r ≤ e.width)
    (hh : 2 * (arr.getD i default).r ≤ e.height) :
    ((stepBall e now live tree arr i).x, (stepBall e now live tree arr i).y,
     (stepBall e now live tree arr i).vx, (stepBall e now live tree arr i).vy) =
      integratorSpec e.width e.height
        (forceStages e now live tree arr i).r (forceStages e now live tree arr i).x
        (forceStages e now live tree arr i).y (forceStages e now live tree arr i).vx
        (forceStages e now live tree arr i).vy := by
  have hr := forceStages_r e now live tree arr i
  exact integrate_bounds_spec e.width e.height _ (by rw [hr]; exact hw) (by rw [hr]; exact hh)

/-- Witness for C5 at a concrete configuration. -/
theorem C5_witness :
    2 * (([mkBall 50 60 4].getD 0 default)).r ≤ (sentinelEnv (fun _ => 0) 400 300).width ∧
    2 * (([mkBall 50 60 4].getD 0 default)).r ≤ (sentinelEnv (fun _ => 0) 400 300).height ∧
    ((stepBall (sentinelEnv (fun _ => 0) 400 300) 0 []
        (buildTree 400 300 [mkBall 50 60 4]) [mkBall 50 60 4] 0).x,
     (stepBall (sentinelEnv (fun _ => 0) 400 300) 0 []
        (buildTree 400 300 [mkBall 50 60 4]) [mkBall 50 60 4] 0).y,
     (stepBall (sentinelEnv (fun _ => 0) 400 300) 0 []
        (buildTree 400 300 [mkBall 50 60 4]) [mkBall 50 60 4] 0).vx,
     (stepBall (sentinelEnv (fun _ => 0) 400 300) 0 []
        (buildTree 400 300 [mkBall 50 60 4]) [mkBall 50 60 4] 0).vy) =
      integratorSpec (sentinelEnv (fun _ => 0) 400 300).width
        (sentinelEnv (fun _ => 0) 400 300).height
        (forceStages (sentinelEnv (fun _ => 0) 400 300) 0 []
          (buildTree 400 300 [mkBall 50 60 4]) [mkBall 50 60 4] 0).r
        (forceStages (sentinelEnv (fun _ => 0) 400 300) 0 []
          (buildTree 400 300 [mkBall 50 60 4]) [mkBall 50 60 4] 0).x
        (forceStages (sentinelEnv (fun _ => 0) 400 300) 0 []
          (buildTree 400 300 [mkBall 50 60 4]) [mkBall 50 60 4] 0).y
        (forceStages (sentinelEnv (fun _ => 0) 400 300) 0 []
          (buildTree 400 300 [mkBall 50 60 4]) [mkBall 50 60 4] 0).vx
        (forceStages (sentinelEnv (fun _ => 0) 400 300) 0 []
          (buildTree 400 300 [mkBall 50 60 4]) [mkBall 50 60 4] 0).vy :=
  ⟨by decide, by decide,
   C5_integrator_refinement (sentinelEnv (fun _ => 0) 400 300) 0 []
     (buildTree 400 300 [mkBall 50 60 4]) [mkBall 50 60 4] 0 (by decide) (by decide)⟩

/-- Pruning twice is the same as pruning once. -/
theorem prune_idem (now : ℚ) (l : List Shock) :
    prune now (prune now l) = prune now l := by
  unfold prune
  induction l with
  | nil => rfl
  | cons s l ih =>
      by_cases h : now - s.time < 400 <;>
        simp [List.filter_cons, h, ih]

/-- The squared norm of a force contribution along an exact unit vector is
the squared force magnitude. -/
theorem norm_contrib (dx dy d F : ℚ) (hd : d ≠ 0) (h2 : d * d = dx * dx + dy * dy) :
    (dx / d * F) ^ 2 + (dy / d * F) ^ 2 = F ^ 2 := by
  field_simp
  linear_combination -(F ^ 2) * h2

/-- Claim C4: shockwave expiry. First conjunct: a tick sees only the pruned
registry, so shockwaves aged 400 ms or more contribute zero force to every
particle of the tick (replacing the registry by its pruned version changes
nothing). Second conjunct: `prune` removes every shockwave whose age
reaches 400 ms. Third conjunct: within its lifetime, a shockwave at true
distance `d` with `0 < d` and squared distance below 300^2 adds a velocity
contribution of magnitude `(1 - age) * 15 * (1 - d/300)` (stated by its
square, which avoids an explicit square root) with `age = (now - time)/400`,
and that magnitude is nonnegative. -/
theorem C4_shockwave_expiry :
    (∀ (e : Env) (now : ℚ) (shocks : List Shock) (nodes : List Ball),
       simulate e now shocks nodes = simulate e now (prune now shocks) nodes) ∧
    (∀ (now : ℚ) (shocks : List Shock) (s : Shock),
       s ∈ shocks → 400 ≤ now - s.time → s ∉ prune now shocks) ∧
    (∀ (e : Env) (now : ℚ) (sw : Shock) (b : Ball) (d : ℚ),
       d = e.sqrtFn ((b.x - sw.x) * (b.x - sw.x) + (b.y - sw.y) * (b.y - sw.y)) →
       d * d = (b.x - sw.x) * (b.x - sw.x) + (b.y - sw.y) * (b.y - sw.y) →
       0 < d →
       (b.x - sw.x) * (b.x - sw.x) + (b.y - sw.y) * (b.y - sw.y) < 300 * 300 →
       sw.time ≤ now → now - sw.time < 400 →
       ((shockStep1 e now sw b).vx - b.vx) ^ 2 + ((shockStep1 e now sw b).vy - b.vy) ^ 2 =
         ((1 - (now - sw.time) / 400) * 15 * (1 - d / 300)) ^ 2 ∧
       0 ≤ (1 - (now - sw.time) / 400) * 15 * (1 - d / 300)) := by
  refine ⟨?_, ?_, ?_⟩
  · intro e now shocks nodes
    unfold simulate
    rw [prune_idem]
  · intro now shocks s hs hage
    unfold prune
    simp only [List.mem_filter, decide_eq_true_eq]
    intro h
    linarith [h.2]
  · intro e now sw b d hd hd2 hdpos hlt htle htlt
    have hguard : (b.x - sw.x) * (b.x - sw.x) + (b.y - sw.y) * (b.y - sw.y) < 300 * 300 ∧
        0 < (b.x - sw.x) * (b.x - sw.x) + (b.y - sw.y) * (b.y - sw.y) := by
      constructor
      · exact hlt
      · rw [← hd2]; positivity
    have hd300 : d < 300 := by nlinarith
    constructor
    · unfold shockStep1
      dsimp only
      rw [if_pos hguard, ← hd]
      dsimp only
      have hdne : d ≠ 0 := ne_of_gt hdpos
      have key := norm_contrib (b.x - sw.x) (b.y - sw.y) d
        ((1 - (now - sw.time) / 400) * 15 * (1 - d / 300)) hdne hd2
      linear_combination key
    · have h1 : 0 ≤ 1 - (now - sw.time) / 400 := by linarith
      have h2 : 0 ≤ 1 - d / 300 := by linarith
      positivity

/-- Witness for C4 at a concrete environment, shockwave and particle. -/
theorem C4_witness :
    (simulate (sentinelEnv (fun q => if q = 2500 then 50 else 0) 400 300) 500
        [{ x := 0, y := 0, time := 0 }] [] =
      simulate (sentinelEnv (fun q => if q = 2500 then 50 else 0) 400 300) 500
        (prune 500 [{ x := 0, y := 0, time := 0 }]) []) ∧
    ({ x := 0, y := 0, time := 0 } : Shock) ∉ prune 500 [{ x := 0, y := 0, time := 0 }] ∧
    (((shockStep1 (sentinelEnv (fun q => if q = 2500 then 50 else 0) 400 300) 100
          { x := 0, y := 0, time := 0 } (mkBall 30 40 4)).vx - (mkBall 30 40 4).vx) ^ 2 +
       ((shockStep1 (sentinelEnv (fun q => if q = 2500 then 50 else 0) 400 300) 100
          { x := 0, y := 0, time := 0 } (mkBall 30 40 4)).vy - (mkBall 30 40 4).vy) ^ 2 =
         ((1 - (100 - (0 : ℚ)) / 400) * 15 * (1 - 50 / 300)) ^ 2 ∧
     0 ≤ (1 - (100 - (0 : ℚ)) / 400) * 15 * (1 - 50 / 300)) :=
  ⟨C4_shockwave_expiry.1 _ 500 _ [],
   C4_shockwave_expiry.2.1 500 _ _ (by decide) (by norm_num),
   C4_shockwave_expiry.2.2 _ 100 { x := 0, y := 0, time := 0 } (mkBall 30 40 4) 50
     (by decide) (by decide) (by norm_num) (by decide) (by norm_num) (by norm_num)⟩

/-- Claim C10: the alpha value the renderer sets for any particle lies in
[0, 1], for every dispersion factor (even outside [0,1]) and every pointer
position including the off-canvas sentinel, as long as the square root of
the squared cursor distance is nonnegative (which `Math.sqrt` guarantees). -/
theorem C10_alpha_range (e : Env) (b : Ball)
    (hs : 0 ≤ e.sqrtFn ((b.x - e.mouseX) * (b.x - e.mouseX) +
        (b.y - e.mouseY) * (b.y - e.mouseY))) :
    0 ≤ drawAlpha e b ∧ drawAlpha e b ≤ 1 := by
  have h : ∀ s g : ℚ, 0 ≤ g →
      0 ≤ min 1 (max 0 (0.6 * (1 - s)) + (if g < 150 then 1 - g / 150 else 0) * 0.08) ∧
      min 1 (max 0 (0.6 * (1 - s)) + (if g < 150 then 1 - g / 150 else 0) * 0.08) ≤ 1 := by
    intro s g hg
    constructor
    · refine le_min (by norm_num) ?_
      have hbase : (0 : ℚ) ≤ max 0 (0.6 * (1 - s)) := le_max_left 0 _
      have hglow : (0 : ℚ) ≤ (if g < 150 then 1 - g / 150 else 0) := by
        split_ifs with hlt
        · linarith
        · exact le_refl 0
      linarith
    · exact min_le_left _ _
  exact h e.scrollProgress _ hs

/-- Witness for C10 at a concrete particle and environment. -/
theorem C10_witness :
    (0 : ℚ) ≤ (sentinelEnv (fun _ => 0) 400 300).sqrtFn
        (((mkBall 50 60 4).x - (sentinelEnv (fun _ => 0) 400 300).mouseX) *
          ((mkBall 50 60 4).x - (sentinelEnv (fun _ => 0) 400 300).mouseX) +
         ((mkBall 50 60 4).y - (sentinelEnv (fun _ => 0) 400 300).mouseY) *
          ((mkBall 50 60 4).y - (sentinelEnv (fun _ => 0) 400 300).mouseY)) ∧
    0 ≤ drawAlpha (sentinelEnv (fun _ => 0) 400 300) (mkBall 50 60 4) ∧
    drawAlpha (sentinelEnv (fun _ => 0) 400 300) (mkBall 50 60 4) ≤ 1 :=
  ⟨by decide,
   C10_alpha_range (sentinelEnv (fun _ => 0) 400 300) (mkBall 50 60 4) (by decide)⟩

/-- Home attraction is inert for a particle resting at its home. -/
theorem homeStep_id (b : Ball) (h1 : b.homeX = b.x) (h2 : b.homeY = b.y) :
    homeStep b = b := by
  obtain ⟨x, y, hx, hy, vx, vy, r, c⟩ := b
  simp only at h1 h2
  subst h1
  subst h2
  unfold homeStep
  simp

/-- Scroll dispersion is inert at dispersion factor zero. -/
theorem disperseStep_id (e : Env) (b : Ball) (h : e.scrollProgress = 0) :
    disperseStep e b = b := by
  unfold disperseStep
  rw [h]
  norm_num

/-- Cursor repulsion is inert when its guard fails. -/
theorem cursorStep_id (e : Env) (b : Ball)
    (h : ¬(0 < (b.x - e.mouseX) * (b.x - e.mouseX) + (b.y - e.mouseY) * (b.y - e.mouseY) ∧
        (b.x - e.mouseX) * (b.x - e.mouseX) + (b.y - e.mouseY) * (b.y - e.mouseY) <
          200 * 200)) :
    cursorStep e b = b := by
  unfold cursorStep
  dsimp only
  rw [if_neg h]

/-- A single shockwave is inert when its guard fails. -/
theorem shockStep1_id (e : Env) (now : ℚ) (sw : Shock) (b : Ball)
    (h : ¬((b.x - sw.x) * (b.x - sw.x) + (b.y - sw.y) * (b.y - sw.y) < 300 * 300 ∧
        0 < (b.x - sw.x) * (b.x - sw.x) + (b.y - sw.y) * (b.y - sw.y))) :
    shockStep1 e now sw b = b := by
  unfold shockStep1
  dsimp only
  rw [if_neg h]

/-- The shockwave loop is inert when every listed shockwave's guard fails. -/
theorem shockStep_id (e : Env) (now : ℚ) :
    ∀ (l : List Shock) (b : Ball),
      (∀ sw ∈ l,
        ¬((b.x - sw.x) * (b.x - sw.x) + (b.y - sw.y) * (b.y - sw.y) < 300 * 300 ∧
          0 < (b.x - sw.x) * (b.x - sw.x) + (b.y - sw.y) * (b.y - sw.y))) →
      shockStep e now l b = b := by
  intro l
  induction l with
  | nil => intro b _; rfl
  | cons sw l ih =>
      intro b hb
      show shockStep e now l (shockStep1 e now sw b) = b
      rw [shockStep1_id e now sw b (hb sw (List.mem_cons_self sw l))]
      exact ih b (fun s hs => hb s (List.mem_cons_of_mem sw hs))

/-- A collision contribution is inert when its guard fails. -/
theorem collideOne_id (e : Env) (b o : Ball)
    (h : ¬(dist2 b o < (b.r + o.r + 1) * (b.r + o.r + 1) ∧ 0 < dist2 b o)) :
    collideOne e b o = b := by
  unfold collideOne
  dsimp only
  rw [if_neg h]

/-- The collision loop is inert when every non-self candidate's guard
fails. -/
theorem collideStep_id (e : Env) (arr : List Ball) (i : ℕ) :
    ∀ (nearby : List ℕ) (b : Ball),
      (∀ j ∈ nearby, j ≠ i →
        ¬(dist2 b (arr.getD j default) <
            (b.r + (arr.getD j default).r + 1) * (b.r + (arr.getD j default).r + 1) ∧
          0 < dist2 b (arr.getD j default))) →
      collideStep e arr i nearby b = b := by
  intro nearby
  induction nearby with
  | nil => intro b _; rfl
  | cons j l ih =>
      intro b hb
      show collideStep e arr i l (if j = i then b else collideOne e b (arr.getD j default)) = b
      by_cases hji : j = i
      · rw [if_pos hji]
        exact ih b (fun k hk hki => hb k (List.mem_cons_of_mem j hk) hki)
      · rw [if_neg hji, collideOne_id e b _ (hb j (List.mem_cons_self j l) hji)]
        exact ih b (fun k hk hki => hb k (List.mem_cons_of_mem j hk) hki)

/-- Integration is inert at zero velocity. -/
theorem integrateStep_id (b : Ball) (hvx : b.vx = 0) (hvy : b.vy = 0) :
    integrateStep b = b := by
  obtain ⟨x, y, hx, hy, vx, vy, r, c⟩ := b
  simp only at hvx hvy
  subst hvx
  subst hvy
  unfold integrateStep
  simp

/-- The soft-bounce clamp is inert for an in-bounds position. -/
theorem boundsStep_id (W H : ℚ) (b : Ball)
    (hx1 : ¬(b.x < b.r)) (hx2 : ¬(b.x > W - b.r))
    (hy1 : ¬(b.y < b.r)) (hy2 : ¬(b.y > H - b.r)) :
    boundsStep W H b = b := by
  unfold boundsStep
  dsimp only
  rw [if_neg hx1, if_neg hx2, if_neg hy1, if_neg hy2]

/-- Claim C9: a particle resting exactly at its home with zero velocity,
whose home lies within `[radius, dimension - radius]` on both axes, is left
unchanged by one `simulate` tick when the pointer is at the off-canvas
sentinel, the dispersion factor is 0, no live shockwave is within 300 px of
it, and no other particle that the spatial index offers as a candidate is
within its collision distance at the moment it is read. -/
theorem C9_home_fixed_point (e : Env) (now : ℚ) (shocks : List Shock)
    (nodes : List Ball) (i : ℕ) (hi : i < nodes.length)
    (hmx : e.mouseX = -9999) (hmy : e.mouseY = -9999) (hsc : e.scrollProgress = 0)
    (hhx : (nodes.getD i default).homeX = (nodes.getD i default).x)
    (hhy : (nodes.getD i default).homeY = (nodes.getD i default).y)
    (hvx : (nodes.getD i default).vx = 0) (hvy : (nodes.getD i default).vy = 0)
    (hr0 : 0 ≤ (nodes.getD i default).r)
    (hx1 : (nodes.getD i default).r ≤ (nodes.getD i default).x)
    (hx2 : (nodes.getD i default).x ≤ e.width - (nodes.getD i default).r)
    (hy1 : (nodes.getD i default).r ≤ (nodes.getD i default).y)
    (hy2 : (nodes.getD i default).y ≤ e.height - (nodes.getD i default).r)
    (hshock : ∀ sw ∈ prune now shocks,
      90000 ≤ ((nodes.getD i default).x - sw.x) * ((nodes.getD i default).x - sw.x) +
        ((nodes.getD i default).y - sw.y) * ((nodes.getD i default).y - sw.y))
    (hcoll : ∀ j ∈ (buildTree e.width e.height nodes).retrieve (nodes.getD i default),
      j ≠ i →
      ((nodes.getD i default).r +
          ((tickFold e now (prune now shocks) (buildTree e.width e.height nodes) nodes i).getD
            j default).r + 1) *
        ((nodes.getD i default).r +
          ((tickFold e now (prune now shocks) (buildTree e.width e.height nodes) nodes i).getD
            j default).r + 1) ≤
        dist2 (nodes.getD i default)
          ((tickFold e now (prune now shocks) (buildTree e.width e.height nodes) nodes i).getD
            j default)) :
    (simulate e now shocks nodes).1.getD i default = nodes.getD i default := by
  rw [simulate_fst_getD e now shocks nodes i hi]
  set live := prune now shocks with hlive
  set tree := buildTree e.width e.height nodes with htree
  set arr := tickFold e now live tree nodes i with harr
  have hn : arr.getD i default = nodes.getD i default :=
    tickFold_getD_of_le e now live tree nodes i i (le_refl i)
  unfold stepBall forceStages
  dsimp only
  rw [hn]
  rw [homeStep_id _ hhx hhy, disperseStep_id e _ hsc]
  rw [cursorStep_id e _ (by
    rw [hmx, hmy]
    intro hcon
    nlinarith [hcon.2, hx1, hy1, hr0])]
  rw [shockStep_id e now live _ (by
    intro sw hsw
    have := hshock sw hsw
    intro hcon
    linarith [hcon.1])]
  rw [collideStep_id e arr i _ _ (by
    intro j hj hji
    have := hcoll j hj hji
    intro hcon
    linarith [hcon.1])]
  rw [integrateStep_id _ hvx hvy]
  exact boundsStep_id e.width e.height _ (by linarith) (by linarith) (by linarith) (by linarith)

/-- Witness for C9: a single settled particle in a 400x300 viewport. -/
theorem C9_witness :
    (simulate (sentinelEnv (fun _ => 0) 400 300) 0 [] [mkBall 50 60 4]).1.getD 0 default =
      [mkBall 50 60 4].getD 0 default :=
  C9_home_fixed_point (sentinelEnv (fun _ => 0) 400 300) 0 [] [mkBall 50 60 4] 0
    (by decide) (by decide) (by decide) (by decide) (by decide) (by decide)
    (by decide) (by decide) (by decide) (by decide) (by decide) (by decide) (by decide)
    (by intro sw hsw; cases hsw) (by decide)

/-- Claim C2, counterexample: two settled particles form a colliding pair
(center distance 7, below the 4+4+1 threshold), yet after one tick the two
separation impulses are not equal and opposite (particle 0 gains
vx = -0.528 while particle 1 gains vx = +0.388608), because particle 1's
force computation reads particle 0's already-updated position rather than
its pre-tick state. -/
theorem C2_counterexample :
    dist2 (C2pair.getD 0 default) (C2pair.getD 1 default) <
      ((C2pair.getD 0 default).r + (C2pair.getD 1 default).r + 1) *
        ((C2pair.getD 0 default).r + (C2pair.getD 1 default).r + 1) ∧
    0 < dist2 (C2pair.getD 0 default) (C2pair.getD 1 default) ∧
    ((simulate C2env 0 [] C2pair).1.getD 1 default).vx ≠
      -((simulate C2env 0 [] C2pair).1.getD 0 default).vx := by
  refine ⟨by decide, by decide, by decide⟩

/-- Claim C2 (amended): the tick processes particles sequentially and in
place: the particle at index `i` is produced by the per-particle step
applied to the array in which particles `0..i-1` already hold their
post-step state for this tick, so updates made earlier in the tick are
visible to particles processed later (and a colliding pair's two impulses
are in general not equal and opposite). -/
theorem C2_amended_sequential (e : Env) (now : ℚ) (shocks : List Shock)
    (nodes : List Ball) (i : ℕ) (hi : i < nodes.length) :
    (simulate e now shocks nodes).1.getD i default =
      stepBall e now (prune now shocks) (buildTree e.width e.height nodes)
        (tickFold e now (prune now shocks) (buildTree e.width e.height nodes) nodes i) i :=
  simulate_fst_getD e now shocks nodes i hi

/-- Witness for the amended C2 at the concrete colliding pair. -/
theorem C2_amended_witness :
    (1 : ℕ) < C2pair.length ∧
    (simulate C2env 0 [] C2pair).1.getD 1 default =
      stepBall C2env 0 (prune 0 []) (buildTree C2env.width C2env.height C2pair)
        (tickFold C2env 0 (prune 0 []) (buildTree C2env.width C2env.height C2pair) C2pair 1) 1 :=
  ⟨by decide, C2_amended_sequential C2env 0 [] C2pair 1 (by decide)⟩

/-- At a zero-size viewport the two sequential clamps of an axis both fire
and leave the position at `-radius`. -/
theorem boundsStep_zero (b : Ball) (hr : 0 < b.r) :
    (boundsStep 0 0 b).x = -b.r ∧ (boundsStep 0 0 b).y = -b.r := by
  unfold boundsStep
  dsimp only
  split_ifs <;> constructor <;> (try dsimp only) <;> linarith

/-- Claim C7, counterexample: with viewport width and height zero,
`generateNodes` still creates the full population of 280 particles (for any
random stream and trig oracles: here concrete zeros) and one `simulate`
tick still moves a particle (from x = 5 to the clamped x = -4): neither
regenerate nor the tick becomes a no-op. -/
theorem C7_counterexample :
    (generateNodes 0 (fun _ => 0) (fun _ => 0) (fun _ => 0) 0 0 0 0).length = BALL_COUNT ∧
    BALL_COUNT ≠ 0 ∧
    ((simulate C7env 0 [] [C7ball]).1.getD 0 default).x ≠ C7ball.x := by
  refine ⟨by simp [generateNodes], by decide, by decide⟩

/-- Claim C7 (amended): the code has no zero-viewport guard. `regenerate`
creates BALL_COUNT particles even at zero dimensions, and the tick still
updates every particle: at width = height = 0 the bounds clamp sends each
particle of positive radius to position (-radius, -radius). (In this exact
rational model no division by a dimension occurs anywhere in the tick; the
divisions are all by computed distances and are separately guarded.) -/
theorem C7_amended_no_guard :
    (∀ (piQ : ℚ) (cosFn sinFn : ℚ → ℚ) (rnd : ℕ → ℚ) (cX cY : ℚ),
      (generateNodes piQ cosFn sinFn rnd 0 0 cX cY).length = BALL_COUNT) ∧
    (∀ (e : Env) (now : ℚ) (shocks : List Shock) (nodes : List Ball) (i : ℕ),
      e.width = 0 → e.height = 0 → i < nodes.length → 0 < (nodes.getD i default).r →
      ((simulate e now shocks nodes).1.getD i default).x = -(nodes.getD i default).r ∧
      ((simulate e now shocks nodes).1.getD i default).y = -(nodes.getD i default).r) := by
  constructor
  · intro piQ cosFn sinFn rnd cX cY
    simp [generateNodes]
  · intro e now shocks nodes i hw0 hh0 hi hr
    rw [simulate_fst_getD e now shocks nodes i hi]
    set live := prune now shocks
    set tree := buildTree e.width e.height nodes
    set arr := tickFold e now live tree nodes i with harr
    have hzr : (integrateStep (forceStages e now live tree arr i)).r =
        (nodes.getD i default).r := by
      rw [integrateStep_r, forceStages_r, harr,
        tickFold_getD_of_le e now live tree nodes i i (le_refl i)]
    unfold stepBall
    rw [hw0, hh0]
    have hb := boundsStep_zero (integrateStep (forceStages e now live tree arr i))
      (by rw [hzr]; exact hr)
    rw [hzr] at hb
    exact hb

/-- Witness for the amended C7 at the concrete zero-viewport input. -/
theorem C7_amended_witness :
    ((simulate C7env 0 [] [C7ball]).1.getD 0 default).x = -([C7ball].getD 0 default).r ∧
    ((simulate C7env 0 [] [C7ball]).1.getD 0 default).y = -([C7ball].getD 0 default).r :=
  C7_amended_no_guard.2 C7env 0 [] [C7ball] 0 (by decide) (by decide) (by decide) (by decide)

/-- Norm of a vector scaled along an exact unit direction. -/
theorem dist_scale (dx dy d s : ℚ) (hd : d ≠ 0) (h2 : d * d = dx * dx + dy * dy) :
    (dx * s / d) * (dx * s / d) + (dy * s / d) * (dy * s / d) = s * s := by
  field_simp
  linear_combination (-(s * s)) * h2

set_option maxHeartbeats 1600000 in
/-- Claim C6: monotonic overlap reduction. For a pair of settled particles
(each at its home with zero velocity), with no scroll dispersion, the
pointer out of repulsion range for both, and no live shockwave, whose
center distance `d` satisfies `0 < d < r0 + r1 + 1`, one tick strictly
increases their center distance while keeping it below the collision
threshold, i.e. it strictly reduces the overlap without overshooting.
Both square roots the tick takes are assumed exact (hypotheses `hd`/`hs2`),
and both particles sit at least one collision threshold away from the
walls so the bounce clamp stays inert. -/
theorem C6_overlap_reduction (e : Env) (now : ℚ) (shocks : List Shock) (b0 b1 : Ball) (d : ℚ)
    (hpr : prune now shocks = [])
    (hsc : e.scrollProgress = 0)
    (hh0x : b0.homeX = b0.x) (hh0y : b0.homeY = b0.y)
    (hh1x : b1.homeX = b1.x) (hh1y : b1.homeY = b1.y)
    (hv0x : b0.vx = 0) (hv0y : b0.vy = 0) (hv1x : b1.vx = 0) (hv1y : b1.vy = 0)
    (hm0 : ¬(0 < (b0.x - e.mouseX) * (b0.x - e.mouseX) +
          (b0.y - e.mouseY) * (b0.y - e.mouseY) ∧
        (b0.x - e.mouseX) * (b0.x - e.mouseX) +
          (b0.y - e.mouseY) * (b0.y - e.mouseY) < 200 * 200))
    (hm1 : ¬(0 < (b1.x - e.mouseX) * (b1.x - e.mouseX) +
          (b1.y - e.mouseY) * (b1.y - e.mouseY) ∧
        (b1.x - e.mouseX) * (b1.x - e.mouseX) +
          (b1.y - e.mouseY) * (b1.y - e.mouseY) < 200 * 200))
    (hd : e.sqrtFn (dist2 b0 b1) = d)
    (hd2 : d * d = dist2 b0 b1)
    (hdpos : 0 < d) (hdM : d < b0.r + b1.r + 1)
    (hs2 : e.sqrtFn ((d + (b0.r + b1.r + 1 - d) * 0.3 * DAMPING) *
          (d + (b0.r + b1.r + 1 - d) * 0.3 * DAMPING)) =
        d + (b0.r + b1.r + 1 - d) * 0.3 * DAMPING)
    (hx0a : b0.r + (b0.r + b1.r + 1) ≤ b0.x)
    (hx0b : b0.x ≤ e.width - b0.r - (b0.r + b1.r + 1))
    (hy0a : b0.r + (b0.r + b1.r + 1) ≤ b0.y)
    (hy0b : b0.y ≤ e.height - b0.r - (b0.r + b1.r + 1))
    (hx1a : b1.r + (b0.r + b1.r + 1) ≤ b1.x)
    (hx1b : b1.x ≤ e.width - b1.r - (b0.r + b1.r + 1))
    (hy1a : b1.r + (b0.r + b1.r + 1) ≤ b1.y)
    (hy1b : b1.y ≤ e.height - b1.r - (b0.r + b1.r + 1)) :
    dist2 b0 b1 <
      dist2 ((simulate e now shocks [b0, b1]).1.getD 0 default)
        ((simulate e now shocks [b0, b1]).1.getD 1 default) ∧
    dist2 ((simulate e now shocks [b0, b1]).1.getD 0 default)
        ((simulate e now shocks [b0, b1]).1.getD 1 default) <
      (b0.r + b1.r + 1) * (b0.r + b1.r + 1) := by
  have hD : DAMPING = (0.88 : ℚ) := rfl
  have hdne : d ≠ 0 := ne_of_gt hdpos
  have hd2u : d * d =
      (b0.x - b1.x) * (b0.x - b1.x) + (b0.y - b1.y) * (b0.y - b1.y) := hd2
  set M := b0.r + b1.r + 1 with hM
  clear_value M
  set dd := (M - d) * 0.3 * DAMPING with hdd
  clear_value dd
  -- sizes of the two displacement magnitudes
  have hdd_pos : 0 < dd := by rw [hdd, hD]; linarith only [hdM]
  have hdd_lt : dd < M - d := by rw [hdd, hD]; linarith only [hdM]
  set ddd := (M - (d + dd)) * 0.3 * DAMPING with hddd
  clear_value ddd
  have hddd_pos : 0 < ddd := by rw [hddd, hD]; linarith only [hdd_lt]
  have hddd_lt : ddd < M - (d + dd) := by rw [hddd, hD]; linarith only [hdd_lt]
  -- unit-direction bounds
  have hsqx : (b0.x - b1.x) * (b0.x - b1.x) ≤ d * d := by
    linarith only [hd2u, mul_self_nonneg (b0.y - b1.y)]
  have hsqy : (b0.y - b1.y) * (b0.y - b1.y) ≤ d * d := by
    linarith only [hd2u, mul_self_nonneg (b0.x - b1.x)]
  have hux1 : -1 ≤ (b0.x - b1.x) / d := by
    rw [le_div_iff₀ hdpos]; nlinarith only [hsqx, hdpos]
  have hux2 : (b0.x - b1.x) / d ≤ 1 := by
    rw [div_le_iff₀ hdpos]; nlinarith only [hsqx, hdpos]
  have huy1 : -1 ≤ (b0.y - b1.y) / d := by
    rw [le_div_iff₀ hdpos]; nlinarith only [hsqy, hdpos]
  have huy2 : (b0.y - b1.y) / d ≤ 1 := by
    rw [div_le_iff₀ hdpos]; nlinarith only [hsqy, hdpos]
  -- the freshly built tree over two particles is an unsplit root
  have htree : buildTree e.width e.height [b0, b1] =
      QT.leaf 0 0 e.width e.height 0 [0, 1] := rfl
  -- first particle's collision contribution
  have hguard0 : dist2 b0 b1 < M * M ∧ 0 < dist2 b0 b1 := by
    constructor
    · rw [← hd2]; nlinarith only [hdpos, hdM]
    · rw [← hd2]; exact mul_pos hdpos hdpos
  have hco0 : collideOne e b0 b1 =
      { b0 with vx := b0.vx + (b0.x - b1.x) / d * (M - d) * 0.3,
                vy := b0.vy + (b0.y - b1.y) / d * (M - d) * 0.3 } := by
    unfold collideOne
    dsimp only
    rw [← hM]
    rw [if_pos hguard0, hd]
  set ir0 := integrateStep (collideOne e b0 b1) with hir0def
  clear_value ir0
  have hir0x : ir0.x = b0.x + (b0.x - b1.x) / d * dd := by
    rw [hir0def, hco0]
    unfold integrateStep
    dsimp only
    rw [hv0x, hdd]
    ring
  have hir0y : ir0.y = b0.y + (b0.y - b1.y) / d * dd := by
    rw [hir0def, hco0]
    unfold integrateStep
    dsimp only
    rw [hv0y, hdd]
    ring
  have hir0r : ir0.r = b0.r := by
    rw [hir0def, integrateStep_r, collideOne_r]
  -- particle 0 stays away from the walls
  have hmx0 := mul_le_mul_of_nonneg_right hux1 (le_of_lt hdd_pos)
  have hmx0' := mul_le_mul_of_nonneg_right hux2 (le_of_lt hdd_pos)
  have hmy0 := mul_le_mul_of_nonneg_right huy1 (le_of_lt hdd_pos)
  have hmy0' := mul_le_mul_of_nonneg_right huy2 (le_of_lt hdd_pos)
  have hb0x1 : ¬(ir0.x < ir0.r) := by
    rw [hir0x, hir0r]; intro hcon
    linarith only [hmx0, hx0a, hdd_lt, hdpos, hcon]
  have hb0x2 : ¬(ir0.x > e.width - ir0.r) := by
    rw [hir0x, hir0r]; intro hcon
    linarith only [hmx0', hx0b, hdd_lt, hdpos, hcon]
  have hb0y1 : ¬(ir0.y < ir0.r) := by
    rw [hir0y, hir0r]; intro hcon
    linarith only [hmy0, hy0a, hdd_lt, hdpos, hcon]
  have hb0y2 : ¬(ir0.y > e.height - ir0.r) := by
    rw [hir0y, hir0r]; intro hcon
    linarith only [hmy0', hy0b, hdd_lt, hdpos, hcon]
  -- the whole step of particle 0
  have hget0 : ([b0, b1].getD 0 default) = b0 := rfl
  have hs0 : stepBall e now [] (buildTree e.width e.height [b0, b1]) [b0, b1] 0 = ir0 := by
    unfold stepBall forceStages
    dsimp only
    rw [hget0, homeStep_id b0 hh0x hh0y, disperseStep_id e b0 hsc, cursorStep_id e b0 hm0]
    rw [show shockStep e now [] b0 = b0 from rfl]
    rw [htree]
    rw [show QT.retrieve b0 (QT.leaf 0 0 e.width e.height 0 [0, 1]) = [0, 1] from rfl]
    rw [show collideStep e [b0, b1] 0 [0, 1] b0 = collideOne e b0 b1 from rfl]
    rw [← hir0def]
    exact boundsStep_id e.width e.height ir0 hb0x1 hb0x2 hb0y1 hb0y2
  -- second particle's collision contribution, reading the updated particle 0
  have hdist10 : dist2 b1 ir0 = (d + dd) * (d + dd) := by
    have e1 : b1.x - ir0.x = -((b0.x - b1.x) * (d + dd) / d) := by
      rw [hir0x]; field_simp; ring
    have e2 : b1.y - ir0.y = -((b0.y - b1.y) * (d + dd) / d) := by
      rw [hir0y]; field_simp; ring
    unfold dist2
    rw [e1, e2]
    linear_combination dist_scale (b0.x - b1.x) (b0.y - b1.y) d (d + dd) hdne hd2u
  have hguard1 : dist2 b1 ir0 < (b1.r + ir0.r + 1) * (b1.r + ir0.r + 1) ∧
      0 < dist2 b1 ir0 := by
    rw [hdist10, hir0r]
    constructor
    · nlinarith only [hM, hdd_lt, hdpos, hdd_pos]
    · nlinarith only [hdpos, hdd_pos]
  have hsq1 : e.sqrtFn (dist2 b1 ir0) = d + dd := by
    rw [hdist10]
    exact hs2
  have hco1 : collideOne e b1 ir0 =
      { b1 with vx := b1.vx + (b1.x - ir0.x) / (d + dd) * ((b1.r + ir0.r + 1) - (d + dd)) * 0.3,
                vy := b1.vy + (b1.y - ir0.y) / (d + dd) * ((b1.r + ir0.r + 1) - (d + dd)) * 0.3 } := by
    unfold collideOne
    dsimp only
    rw [if_pos hguard1, hsq1]
  have hddne : d + dd ≠ 0 := by positivity
  have hkeyx : (b1.x - ir0.x) / (d + dd) = -((b0.x - b1.x) / d) := by
    rw [hir0x]
    field_simp
    ring
  have hkeyy : (b1.y - ir0.y) / (d + dd) = -((b0.y - b1.y) / d) := by
    rw [hir0y]
    field_simp
    ring
  set ir1 := integrateStep (collideOne e b1 ir0) with hir1def
  clear_value ir1
  have hir1x : ir1.x = b1.x - (b0.x - b1.x) / d * ddd := by
    rw [hir1def, hco1]
    unfold integrateStep
    dsimp only
    rw [hv1x, hkeyx, hir0r, hddd, hM]
    ring
  have hir1y : ir1.y = b1.y - (b0.y - b1.y) / d * ddd := by
    rw [hir1def, hco1]
    unfold integrateStep
    dsimp only
    rw [hv1y, hkeyy, hir0r, hddd, hM]
    ring
  have hir1r : ir1.r = b1.r := by
    rw [hir1def, integrateStep_r, collideOne_r]
  -- particle 1 stays away from the walls
  have hmx1 := mul_le_mul_of_nonneg_right hux1 (le_of_lt hddd_pos)
  have hmx1' := mul_le_mul_of_nonneg_right hux2 (le_of_lt hddd_pos)
  have hmy1 := mul_le_mul_of_nonneg_right huy1 (le_of_lt hddd_pos)
  have hmy1' := mul_le_mul_of_nonneg_right huy2 (le_of_lt hddd_pos)
  have hb1x1 : ¬(ir1.x < ir1.r) := by
    rw [hir1x, hir1r]; intro hcon
    linarith only [hmx1', hx1a, hddd_lt, hdd_pos, hdpos, hcon]
  have hb1x2 : ¬(ir1.x > e.width - ir1.r) := by
    rw [hir1x, hir1r]; intro hcon
    linarith only [hmx1, hx1b, hddd_lt, hdd_pos, hdpos, hcon]
  have hb1y1 : ¬(ir1.y < ir1.r) := by
    rw [hir1y, hir1r]; intro hcon
    linarith only [hmy1', hy1a, hddd_lt, hdd_pos, hdpos, hcon]
  have hb1y2 : ¬(ir1.y > e.height - ir1.r) := by
    rw [hir1y, hir1r]; intro hcon
    linarith only [hmy1, hy1b, hddd_lt, hdd_pos, hdpos, hcon]
  -- the whole step of particle 1
  have hget1 : ([ir0, b1].getD 1 default) = b1 := rfl
  have hs1 : stepBall e now [] (buildTree e.width e.height [b0, b1]) [ir0, b1] 1 = ir1 := by
    unfold stepBall forceStages
    dsimp only
    rw [hget1, homeStep_id b1 hh1x hh1y, disperseStep_id e b1 hsc, cursorStep_id e b1 hm1]
    rw [show shockStep e now [] b1 = b1 from rfl]
    rw [htree]
    rw [show QT.retrieve b1 (QT.leaf 0 0 e.width e.height 0 [0, 1]) = [0, 1] from rfl]
    rw [show collideStep e [ir0, b1] 1 [0, 1] b1 = collideOne e b1 ir0 from rfl]
    rw [← hir1def]
    exact boundsStep_id e.width e.height ir1 hb1x1 hb1x2 hb1y1 hb1y2
  -- assemble the tick
  have hres : (simulate e now shocks [b0, b1]).1 = [ir0, ir1] := by
    show tickFold e now (prune now shocks) (buildTree e.width e.height [b0, b1]) [b0, b1]
        (List.length [b0, b1]) = [ir0, ir1]
    rw [hpr]
    show tickFold e now [] (buildTree e.width e.height [b0, b1]) [b0, b1] 2 = [ir0, ir1]
    rw [tickFold_succ]
    rw [show tickFold e now [] (buildTree e.width e.height [b0, b1]) [b0, b1] 1 =
      [ir0, b1] from by
        rw [tickFold_succ]
        show [b0, b1].set 0
            (stepBall e now [] (buildTree e.width e.height [b0, b1]) [b0, b1] 0) = [ir0, b1]
        rw [hs0]
        rfl]
    show [ir0, b1].set 1
        (stepBall e now [] (buildTree e.width e.height [b0, b1]) [ir0, b1] 1) = [ir0, ir1]
    rw [hs1]
    rfl
  rw [hres]
  rw [show ([ir0, ir1].getD 0 default) = ir0 from rfl,
    show ([ir0, ir1].getD 1 default) = ir1 from rfl]
  have hfinal : dist2 ir0 ir1 = (d + dd + ddd) * (d + dd + ddd) := by
    have f1 : ir0.x - ir1.x = (b0.x - b1.x) * (d + dd + ddd) / d := by
      rw [hir0x, hir1x]; field_simp; ring
    have f2 : ir0.y - ir1.y = (b0.y - b1.y) * (d + dd + ddd) / d := by
      rw [hir0y, hir1y]; field_simp; ring
    unfold dist2
    rw [f1, f2]
    exact dist_scale (b0.x - b1.x) (b0.y - b1.y) d (d + dd + ddd) hdne hd2u
  rw [hfinal, ← hd2]
  constructor
  · nlinarith only [hdpos, hdd_pos, hddd_pos]
  · nlinarith only [hddd_lt, hdpos, hdd_pos, hddd_pos]

/-- Witness for C6 at the concrete colliding pair (distance 7, radii 4 and
4, both displacement square roots exact rationals). -/
theorem C6_witness :
    prune 0 [] = [] ∧
    C2env.sqrtFn (dist2 (mkBall 100 200 4) (mkBall 107 200 4)) = 7 ∧
    (7 : ℚ) * 7 = dist2 (mkBall 100 200 4) (mkBall 107 200 4) ∧
    (0 : ℚ) < 7 ∧ (7 : ℚ) < (mkBall 100 200 4).r + (mkBall 107 200 4).r + 1 ∧
    dist2 (mkBall 100 200 4) (mkBall 107 200 4) <
      dist2 ((simulate C2env 0 [] [mkBall 100 200 4, mkBall 107 200 4]).1.getD 0 default)
        ((simulate C2env 0 [] [mkBall 100 200 4, mkBall 107 200 4]).1.getD 1 default) ∧
    dist2 ((simulate C2env 0 [] [mkBall 100 200 4, mkBall 107 200 4]).1.getD 0 default)
        ((simulate C2env 0 [] [mkBall 100 200 4, mkBall 107 200 4]).1.getD 1 default) <
      ((mkBall 100 200 4).r + (mkBall 107 200 4).r + 1) *
        ((mkBall 100 200 4).r + (mkBall 107 200 4).r + 1) :=
  ⟨rfl, by decide, by decide, by norm_num, by decide,
   C6_overlap_reduction C2env 0 [] (mkBall 100 200 4) (mkBall 107 200 4) 7
     rfl (by decide) (by decide) (by decide) (by decide) (by decide)
     (by decide) (by decide) (by decide) (by decide) (by decide) (by decide)
     (by decide) (by decide) (by norm_num) (by decide) (by decide)
     (by decide) (by decide) (by decide) (by decide)
     (by decide) (by decide) (by decide) (by decide)⟩

end Theorems

end Tailor
